import Mathlib

/-!
Verification of the EPL Data API (files `app1.py` and `app.py`).

The development shallowly embeds the pure core of the service: the JSON
loader with its `lru_cache` wrapper, the schema registry
(`generate_properties` / `generate_required` / `SCHEMAS`), the two filter
functions (`filter_by_key`, `filter_by_date`), the paginator (`paginate`)
and the `/players` handler (`get_players`).  `app1.py` is the
syntactically valid revision of the repository and is taken as the
authority; where `app.py` (whose first halves of duplicated definitions
differ) is relevant, the variant is modelled separately
(`filter_by_key_app`).

Modelling conventions:
- JSON values are modelled to the depth the code inspects: field values
  are primitives (`JVal`), records are association lists, and a loaded
  document (`JDoc`) is an array of objects/primitives or a single
  non-array value.
- Python `str.lower` is modelled over the ASCII range by `pyLower`;
  `str.isalpha`, `int(...)` and list slicing are modelled by `pyIsAlpha`,
  `pyInt` and `pySlice`.
- `datetime.strptime` for the two formats used by the code is modelled by
  `parseDate` (format `%Y-%m-%d`) and `parseDateTime`
  (format `%Y-%m-%dT%H:%M:%S`), including calendar range checks.
- Exceptions are explicit: `Except PyErr` for expression-level code, and
  dedicated result types (`PaginateOut`, `DateFilterOut`, `HandlerOut`)
  for the functions that can also return Flask error responses.
- The `functools.lru_cache(maxsize=10)` wrapper on `load_json_file`
  hashes the argument tuple before the body runs; a `dict`-valued
  `schema` argument is unhashable, so such calls raise `TypeError`
  inside the wrapper.  The model reflects this in `load_json_file`.
-/

/-- A primitive JSON field value (the depth the filters and schemas inspect). -/
inductive JVal where
  | str (s : String)
  | int (n : Int)
  | bool (b : Bool)
  | null
deriving DecidableEq, Repr

/-- A JSON object: a Python `dict` mapping field names to values. -/
abbrev Record := List (String × JVal)

/-- An element of a loaded JSON array: an object or a primitive. -/
inductive JItem where
  | obj (r : Record)
  | prim (v : JVal)
deriving DecidableEq, Repr

/-- A loaded JSON document: an array, or a single non-array value. -/
inductive JDoc where
  | arr (items : List JItem)
  | objDoc (r : Record)
  | prim (v : JVal)
deriving DecidableEq, Repr

/-- Python `dict.get(k)`: the value at key `k`, if present. -/
def dictGet (r : Record) (k : String) : Option JVal :=
  (r.find? (fun e => decide (e.1 = k))).map (fun e => e.2)

/-- Python `dict.get(k, d)`: lookup with a default. -/
def dictGetD (r : Record) (k : String) (d : JVal) : JVal :=
  (dictGet r k).getD d

/-- Python `str.lower`, modelled over the ASCII range. -/
def pyLower (s : String) : String :=
  String.mk (s.data.map Char.toLower)

/-- Python exceptions that the embedded code can raise. -/
inductive PyErr where
  | typeError
  | attributeError
  | keyError
deriving DecidableEq, Repr

/-- `v.lower()` on a JSON value: succeeds only on strings, otherwise the
Python expression raises `AttributeError`. -/
def lowerVal : JVal → Except PyErr String
  | .str s => .ok (pyLower s)
  | _ => .error .attributeError

/-- `filter_by_key` (app1.py lines 149-159): the list comprehension
`[item for item in data_list if item.get(key, "").lower() == value.lower()]`,
evaluated left to right; the first item whose value does not support
`.lower()` raises, and app1.py has no handler, so the error propagates. -/
def filter_by_key : List Record → String → String → Except PyErr (List Record)
  | [], _, _ => .ok []
  | item :: rest, key, value =>
    match lowerVal (dictGetD item key (.str "")) with
    | .error e => .error e
    | .ok s =>
      match filter_by_key rest key value with
      | .error e => .error e
      | .ok tail => .ok (if s = pyLower value then item :: tail else tail)

/-- `filter_by_key` as defined in app.py lines 210-221: the same
comprehension wrapped in `try ... except Exception: return []`. -/
def filter_by_key_app (l : List Record) (key value : String) : List Record :=
  match filter_by_key l key value with
  | .ok r => r
  | .error _ => []

/-- The value `record[field]` with missing fields read as `""`, as the
comprehension's `item.get(key, "")` does, restricted to string values. -/
def getStrD (r : Record) (k : String) : String :=
  match dictGet r k with
  | some (.str s) => s
  | _ => ""

/-- `True` when the value of `r` at `k`, if any, is a string, so that
`.lower()` cannot raise on it. -/
def stringyAt (r : Record) (k : String) : Bool :=
  match dictGet r k with
  | none => true
  | some (.str _) => true
  | some _ => false

/-- A calendar date, as compared by Python `datetime.date` equality. -/
structure Date where
  y : Nat
  m : Nat
  d : Nat
deriving DecidableEq, Repr

/-- Split a list of characters at every occurrence of `c`
(Python `str.split(c)` semantics for a one-character separator). -/
def splitOnCharList (c : Char) : List Char → List (List Char)
  | [] => [[]]
  | x :: xs =>
    match splitOnCharList c xs with
    | [] => [[]]
    | y :: ys => if x = c then [] :: y :: ys else (x :: y) :: ys

/-- Split a string at every occurrence of the character `c`. -/
def splitString (c : Char) (s : String) : List String :=
  (splitOnCharList c s.data).map (fun l => String.mk l)

/-- The numeric value of a list of decimal digit characters. -/
def digitsVal (l : List Char) : Nat :=
  l.foldl (fun a c => a * 10 + (c.toNat - 48)) 0

/-- Nonempty and all decimal digits. -/
def isDigits (l : List Char) : Bool :=
  !l.isEmpty && l.all Char.isDigit

/-- A one- or two-digit numeric field, as `strptime` matches
`%m`, `%d`, `%H`, `%M` and `%S`. -/
def parseNat2 (s : String) : Option Nat :=
  if (s.length = 1 ∨ s.length = 2) ∧ isDigits s.data = true then
    some (digitsVal s.data)
  else none

/-- A four-digit year, as `strptime` matches `%Y`. -/
def parseYear (s : String) : Option Nat :=
  if s.length = 4 ∧ isDigits s.data = true then some (digitsVal s.data) else none

/-- `True` in leap years, Gregorian rules. -/
def isLeap (y : Nat) : Bool :=
  (y % 4 == 0 && y % 100 != 0) || y % 400 == 0

/-- Days in a month, used by the `datetime` constructor range check. -/
def daysInMonth (y m : Nat) : Nat :=
  if m = 2 then (if isLeap y then 29 else 28)
  else if m = 4 ∨ m = 6 ∨ m = 9 ∨ m = 11 then 30 else 31

/-- `datetime.strptime(s, "%Y-%m-%d")`, reduced to the resulting calendar
date; `none` models the `ValueError` raised on any mismatch, including
out-of-range month or day and year 0. -/
def parseDate (s : String) : Option Date :=
  match splitString '-' s with
  | [ys, ms, ds] =>
    match parseYear ys, parseNat2 ms, parseNat2 ds with
    | some y, some m, some d =>
      if 1 ≤ y ∧ 1 ≤ m ∧ m ≤ 12 ∧ 1 ≤ d ∧ d ≤ daysInMonth y m then
        some { y := y, m := m, d := d }
      else none
    | _, _, _ => none
  | _ => none

/-- The time-of-day part `"%H:%M:%S"` of the timestamp format;
only its well-formedness matters, since the code compares `.date()`. -/
def parseTime (s : String) : Option (Nat × Nat × Nat) :=
  match splitString ':' s with
  | [hs, ms, ss] =>
    match parseNat2 hs, parseNat2 ms, parseNat2 ss with
    | some h, some mi, some sec =>
      if h ≤ 23 ∧ mi ≤ 59 ∧ sec ≤ 59 then some (h, mi, sec) else none
    | _, _, _ => none
  | _ => none

/-- `datetime.strptime(s, "%Y-%m-%dT%H:%M:%S").date()`: the calendar date
of an ISO-8601 timestamp, or `none` for the `ValueError` on mismatch. -/
def parseDateTime (s : String) : Option Date :=
  match splitString 'T' s with
  | [ds, ts] =>
    match parseDate ds, parseTime ts with
    | some d, some _ => some d
    | _, _ => none
  | _ => none

/-- A primitive type tag in a JSON schema (`"integer"` or `"string"`). -/
inductive SType where
  | sInt
  | sStr
deriving DecidableEq, Repr

/-- `generate_properties` (app1.py lines 63-89): per-resource property
types. -/
def generate_properties (key : String) : List (String × SType) :=
  if key = "all_players" ∨ key = "players" then
    [("player_id", .sInt), ("player_name", .sStr), ("team_title", .sStr), ("position", .sStr)]
  else if key = "teams" then
    [("team_id", .sInt), ("team_name", .sStr), ("stadium", .sStr), ("manager", .sStr)]
  else if key = "matches" then
    [("datetime", .sStr), ("team_a", .sStr), ("team_b", .sStr), ("score", .sStr)]
  else []

/-- `generate_required` (app1.py lines 91-102): per-resource required
fields. -/
def generate_required (key : String) : List String :=
  if key = "all_players" ∨ key = "players" then
    ["player_id", "player_name", "team_title", "position"]
  else if key = "teams" then
    ["team_id", "team_name", "stadium", "manager"]
  else if key = "matches" then
    ["datetime", "team_a", "team_b"]
  else []

/-- The schema of one resource: the `"items"` object of the array schema
built in app1.py lines 112-122 (`"properties"` and `"required"`). -/
structure ArraySchema where
  props : List (String × SType)
  required : List String
deriving DecidableEq, Repr

/-- `SCHEMAS` (app1.py lines 112-122), as a lookup from resource key. -/
def SCHEMAS (key : String) : ArraySchema :=
  { props := generate_properties key, required := generate_required key }

/-- `jsonschema` primitive type check (`"integer"` excludes booleans). -/
def typeOk : SType → JVal → Bool
  | .sInt, .int _ => true
  | .sStr, .str _ => true
  | _, _ => false

/-- One array element against the item schema: all required fields
present, and every declared property, when present, of the declared
type.  Extra fields are allowed, as in `jsonschema`. -/
def itemOk (sch : ArraySchema) (r : Record) : Bool :=
  sch.required.all (fun f => (dictGet r f).isSome) &&
  sch.props.all (fun ft =>
    match dictGet r ft.1 with
    | none => true
    | some v => typeOk ft.2 v)

/-- `jsonschema.validate` of a list of records against an array schema,
as a boolean: `false` models the raised `ValidationError`. -/
def validateArray (sch : ArraySchema) (l : List Record) : Bool :=
  l.all (fun r => itemOk sch r)

/-- Outcome of `filter_by_date` (app1.py lines 161-188): a filtered list,
one of the two `jsonify(..., 400)` error responses, or an uncaught
exception (only `ValueError` and `ValidationError` are handled). -/
inductive DateFilterOut where
  | ok (l : List Record)
  | invalidDateResp
  | schemaFailResp
  | raise (e : PyErr)
deriving DecidableEq, Repr

/-- Failure of the record-selection comprehension inside
`filter_by_date`: a `ValueError` from `strptime` on a malformed
timestamp (caught), or an exception the function does not catch
(`KeyError` for a missing `"datetime"` field, `TypeError` for a
non-string one). -/
inductive ItemFail where
  | valueErr
  | raised (e : PyErr)
deriving DecidableEq, Repr

/-- The comprehension of app1.py lines 172-175: keep the records whose
timestamp has calendar date `target`, evaluated left to right; the first
bad record aborts the whole comprehension. -/
def filterItemsByDate (target : Date) : List Record → Except ItemFail (List Record)
  | [] => .ok []
  | r :: rest =>
    match dictGet r "datetime" with
    | none => .error (.raised .keyError)
    | some (.str s) =>
      match parseDateTime s with
      | none => .error .valueErr
      | some d =>
        match filterItemsByDate target rest with
        | .error e => .error e
        | .ok tail => .ok (if d = target then r :: tail else tail)
    | some _ => .error (.raised .typeError)

/-- `filter_by_date` (app1.py lines 161-188): parse the target date
(`ValueError` becomes the invalid-date 400 response), select the
matching records (a record-level `ValueError` is caught by the same
handler), then re-validate the selection against `SCHEMAS["matches"]`
(`ValidationError` becomes the schema-failure 400 response). -/
def filter_by_date (l : List Record) (date : String) : DateFilterOut :=
  match parseDate date with
  | none => .invalidDateResp
  | some target =>
    match filterItemsByDate target l with
    | .error .valueErr => .invalidDateResp
    | .error (.raised e) => .raise e
    | .ok kept =>
      if validateArray (SCHEMAS "matches") kept then .ok kept else .schemaFailResp

/-- `True` when the record has a string `"datetime"` field that parses in
the timestamp format, so the comprehension cannot fail on it. -/
def dtParses (r : Record) : Bool :=
  match dictGet r "datetime" with
  | some (.str s) => (parseDateTime s).isSome
  | _ => false

/-- `True` when the record has a parseable timestamp whose calendar date
equals `target`. -/
def dateMatches (r : Record) (target : Date) : Bool :=
  match dictGet r "datetime" with
  | some (.str s) =>
    match parseDateTime s with
    | some d => decide (d = target)
    | none => false
  | _ => false

/-- Python `int(s)` on a string: optional surrounding whitespace, an
optional sign, then decimal digits (digit grouping underscores are not
modelled); `none` models the `ValueError`. -/
def pyInt (s : String) : Option Int :=
  let t := ((s.data.dropWhile Char.isWhitespace).reverse.dropWhile Char.isWhitespace).reverse
  match t with
  | '-' :: rest => if isDigits rest then some (-(digitsVal rest : Int)) else none
  | '+' :: rest => if isDigits rest then some (digitsVal rest : Int) else none
  | l => if isDigits l then some (digitsVal l : Int) else none

/-- Normalise one bound of a Python slice `l[a:b]` for nonnegative and
negative indices. -/
def sliceIdx (len : Nat) (i : Int) : Nat :=
  if i < 0 then ((len : Int) + i).toNat else min len i.toNat

/-- Python list slicing `l[a:b]`. -/
def pySlice {α : Type} (l : List α) (a b : Int) : List α :=
  (l.drop (sliceIdx l.length a)).take (sliceIdx l.length b - sliceIdx l.length a)

/-- Outcome of `paginate` (app1.py lines 201-238): a page of records, the
`jsonify(..., 404)` no-results response for empty input, or the
`jsonify(..., 400)` response for unparseable `page`/`per_page`. -/
inductive PaginateOut where
  | ok (l : List Record)
  | noResults
  | badParams
deriving DecidableEq, Repr

/-- `paginate` (app1.py lines 201-238).  The query parameters
`request.args.get('page', 1)` and `request.args.get('per_page', 50)` are
passed as `Option String` (absent parameters take the integer
defaults); `int(...)` failures on either are caught together and mapped
to the 400 response; `page` is clamped to at least 1, `per_page` to
`[1, 100]`, and the page is the slice `data_list[start:end]`. -/
def paginate (data_list : List Record) (pageArg perArg : Option String) : PaginateOut :=
  if data_list.isEmpty then .noResults
  else
    match (match pageArg with | none => some 1 | some s => pyInt s),
          (match perArg with | none => some 50 | some s => pyInt s) with
    | some p, some pp =>
      let page := max 1 p
      let per_page := min 100 (max 1 pp)
      let start := (page - 1) * per_page
      .ok (pySlice data_list start (start + per_page))
    | _, _ => .badParams

/-- State of the file behind a path: absent, unparseable, or a JSON
document. -/
inductive FileState where
  | missing
  | badJson
  | content (doc : JDoc)

/-- The disk, as seen through `open` and `json.load`. -/
abbrev FS : Type := String → FileState

/-- The `lru_cache` store of `load_json_file`: most recently used first.
Entries are keyed by the argument tuple; every cached call has
`schema=None` (a `dict` schema raises before the cache is consulted), so
the key reduces to the path string. -/
abbrev Cache : Type := List (String × JDoc)

/-- Cache lookup by path. -/
def cacheLookup (c : Cache) (k : String) : Option JDoc :=
  (c.find? (fun e => decide (e.1 = k))).map (fun e => e.2)

/-- On a hit, `lru_cache` moves the entry to the most-recently-used
position. -/
def cachePromote (c : Cache) (k : String) : Cache :=
  match cacheLookup c k with
  | none => c
  | some v => (k, v) :: c.filter (fun e => !(decide (e.1 = k)))

/-- On a miss, `lru_cache` stores the new entry and evicts beyond
`maxsize=10`, least recently used first. -/
def cacheInsert (c : Cache) (k : String) (v : JDoc) : Cache :=
  ((k, v) :: c).take 10

/-- The body of `load_json_file` with `schema=None` (app1.py lines
129-144): read and parse the file, converting `FileNotFoundError` and
`JSONDecodeError` into `[]`.  (The `ValidationError` arm is dead: with a
schema the wrapper raises first, see `load_json_file`.) -/
def jsonBody (fs : FS) (path : String) : JDoc :=
  match fs path with
  | .missing => .arr []
  | .badJson => .arr []
  | .content doc => doc

/-- One call outcome of the cached `load_json_file`. -/
structure LoadStep where
  result : Except PyErr JDoc
  cache : Cache
  disk : Bool

/-- `load_json_file` (app1.py lines 128-144) including its
`@lru_cache(maxsize=10)` wrapper.  The wrapper hashes the argument tuple
first: a supplied schema is a Python `dict`, which is unhashable, so the
call raises `TypeError` before the function body runs and nothing is
cached.  With `schema=None` the wrapper serves hits from the cache
without touching disk and caches misses (including the `[]` results of
the handled failures). -/
def load_json_file (c : Cache) (fs : FS) (path : String) (schema : Option ArraySchema) : LoadStep :=
  match schema with
  | some _ => { result := .error .typeError, cache := c, disk := false }
  | none =>
    match cacheLookup c path with
    | some v => { result := .ok v, cache := cachePromote c path, disk := false }
    | none =>
      let v := jsonBody fs path
      { result := .ok v, cache := cacheInsert c path v, disk := true }

/-- `DATA_FILES` (app1.py lines 105-110, the binding in effect). -/
def DATA_FILES (key : String) : String :=
  if key = "all_players" then "all_players.json"
  else if key = "players" then "players.json"
  else if key = "teams" then "teams.json"
  else if key = "matches" then "matches.json"
  else ""

/-- Python truthiness of a loaded document (`if not players:`). -/
def pyTruthy : JDoc → Bool
  | .arr [] => false
  | .arr (_ :: _) => true
  | .objDoc [] => false
  | .objDoc (_ :: _) => true
  | .prim (.str "") => false
  | .prim (.str _) => true
  | .prim (.int n) => !(decide (n = 0))
  | .prim (.bool b) => b
  | .prim .null => false

/-- Python `str.isalpha`, modelled over the ASCII range. -/
def pyIsAlpha (s : String) : Bool :=
  !s.isEmpty && s.data.all Char.isAlpha

/-- The record elements of a loaded array document (the handler passes
the loaded list on to `filter_by_key`; non-object elements would raise
there, but the branch is unreachable, see `get_players_always_raises`). -/
def recordsOfJson : JDoc → List Record
  | .arr items => items.filterMap (fun it =>
      match it with
      | .obj r => some r
      | .prim _ => none)
  | _ => []

/-- Outcome of a request handler. -/
inductive HandlerOut where
  | payload (l : List Record)
  | clientError (msg : String)
  | serverError (msg : String)
  | raise (e : PyErr)
deriving DecidableEq, Repr

/-- `get_players` (app1.py lines 263-276): load the players file with its
schema, reject a non-alphabetic `team` value, reject an empty resource,
filter by `team_title`, paginate.  A raised exception propagates out of
the handler (Flask turns it into a 500).  `jsonify` applied to the
tuple-valued error returns of `paginate` raises `TypeError` (a `Response`
is not JSON serialisable). -/
def get_players (c : Cache) (fs : FS) (team pageArg perArg : Option String) : HandlerOut × Cache :=
  let step := load_json_file c fs (DATA_FILES "players") (some (SCHEMAS "players"))
  match step.result with
  | .error e => (.raise e, step.cache)
  | .ok doc =>
    let teamTruthy := match team with | none => false | some t => !(decide (t = ""))
    if teamTruthy && !(pyIsAlpha (team.getD "")) then
      (.clientError "Invalid team parameter. Must contain only alphabetic characters.", step.cache)
    else if !(pyTruthy doc) then
      (.serverError "Player data not available", step.cache)
    else
      let players := recordsOfJson doc
      match (if teamTruthy then filter_by_key players "team_title" (team.getD "") else .ok players) with
      | .error e => (.raise e, step.cache)
      | .ok ps =>
        match paginate ps pageArg perArg with
        | .ok l => (.payload l, step.cache)
        | _ => (.raise .typeError, step.cache)

/-- Decidable equality for call outcomes. -/
instance exceptDecEq {E A : Type} [DecidableEq E] [DecidableEq A] : DecidableEq (Except E A) := fun a b =>
  match a, b with
  | .error e, .error f =>
    if h : e = f then .isTrue (h ▸ rfl) else .isFalse (fun hh => h (by cases hh; rfl))
  | .ok x, .ok y =>
    if h : x = y then .isTrue (h ▸ rfl) else .isFalse (fun hh => h (by cases hh; rfl))
  | .error _, .ok _ => .isFalse (fun hh => Except.noConfusion hh)
  | .ok _, .error _ => .isFalse (fun hh => Except.noConfusion hh)

/-- An empty disk: every path is missing. -/
def fs0 : FS := fun _ => .missing

/-- A 120-element record sequence, for the pagination example. -/
def sample120 : List Record :=
  (List.range 120).map (fun i => [("player_id", JVal.int (i : Int))])

/-- Two records with string values on the examined field, for the
key-filter witness. -/
def c4l : List Record :=
  [[("team_title", JVal.str "Arsenal")], [("position", JVal.int 1)]]

/-- A record whose examined field holds an integer, so `.lower()` raises
`AttributeError`. -/
def c6bad : List Record := [[("position", JVal.int 3)]]

/-- A record with an integer `team_title`, for the app.py-variant
witness. -/
def c6bad2 : List Record := [[("team_title", JVal.int 9)]]

/-- A match record with a matching date but a missing required `team_a`,
violating the matches schema. -/
def c7rec : Record :=
  [("datetime", JVal.str "2024-01-01T15:00:00"), ("team_b", JVal.str "Spurs")]

/-- A match record with a matching date but a non-string `team_a`,
violating the matches schema. -/
def c10rec : Record :=
  [("datetime", JVal.str "2024-01-01T10:30:00"), ("team_a", JVal.int 7), ("team_b", JVal.str "Leeds")]

/-- A schema-valid match on 2024-01-01 at 15:00. -/
def exMatch1 : Record :=
  [("datetime", JVal.str "2024-01-01T15:00:00"), ("team_a", JVal.str "Arsenal"), ("team_b", JVal.str "Chelsea")]

/-- A schema-valid match on 2024-01-02 at 12:00. -/
def exMatch2 : Record :=
  [("datetime", JVal.str "2024-01-02T12:00:00"), ("team_a", JVal.str "Leeds"), ("team_b", JVal.str "Spurs")]

/-- The two-record match set of the specification example. -/
def exMatches : List Record := [exMatch1, exMatch2]

theorem pyLower_empty : pyLower "" = "" := rfl

theorem pyLower_eq_empty {v : String} (h : pyLower v = "") : v = "" := by
  have hd : v.data.map Char.toLower = [] := congrArg String.data h
  have hnil : v.data = [] := List.map_eq_nil_iff.mp hd
  cases v with
  | mk data =>
    subst hnil
    rfl

theorem filter_by_key_cons (a : Record) (l : List Record) (f v : String) :
    filter_by_key (a :: l) f v =
      match lowerVal (dictGetD a f (.str "")) with
      | .error e => .error e
      | .ok s =>
        match filter_by_key l f v with
        | .error e => .error e
        | .ok tail => .ok (if s = pyLower v then a :: tail else tail) := rfl

/-- On records whose examined field values are strings, `filter_by_key`
computes the plain filter by the case-folded equality predicate. -/
theorem filter_by_key_eq_filter (l : List Record) (f v : String)
    (h : ∀ r ∈ l, stringyAt r f = true) :
    filter_by_key l f v =
      .ok (l.filter (fun r => decide (pyLower (getStrD r f) = pyLower v))) := by
  induction l with
  | nil => rfl
  | cons item rest ih =>
    have hitem : stringyAt item f = true := h item (List.mem_cons_self _ _)
    have hrest : ∀ r ∈ rest, stringyAt r f = true :=
      fun r hr => h r (List.mem_cons_of_mem _ hr)
    have hlow : lowerVal (dictGetD item f (.str "")) = .ok (pyLower (getStrD item f)) := by
      unfold stringyAt at hitem
      unfold dictGetD getStrD
      cases hg : dictGet item f with
      | none => simp [lowerVal, Option.getD]
      | some jv =>
        cases jv with
        | str s => simp [lowerVal, Option.getD]
        | int n => rw [hg] at hitem; simp at hitem
        | bool b => rw [hg] at hitem; simp at hitem
        | null => rw [hg] at hitem; simp at hitem
    rw [filter_by_key_cons, hlow, ih hrest]
    by_cases hc : pyLower (getStrD item f) = pyLower v
    · simp [hc, List.filter_cons]
    · simp [hc, List.filter_cons]

/-- A successful `filter_by_key` output is a fixed point: filtering the
result again by the same field and value returns it unchanged. -/
theorem filter_by_key_ok_fix :
    ∀ (l : List Record) (f v : String) (r : List Record),
      filter_by_key l f v = .ok r → filter_by_key r f v = .ok r := by
  intro l
  induction l with
  | nil =>
    intro f v r h
    unfold filter_by_key at h
    cases h
    rfl
  | cons item rest ih =>
    intro f v r h
    rw [filter_by_key_cons] at h
    cases hl : lowerVal (dictGetD item f (.str "")) with
    | error e => rw [hl] at h; dsimp only at h; cases h
    | ok s =>
      rw [hl] at h
      dsimp only at h
      cases hr : filter_by_key rest f v with
      | error e => rw [hr] at h; cases h
      | ok tail =>
        rw [hr] at h
        dsimp only at h
        have htail : filter_by_key tail f v = .ok tail := ih f v tail hr
        by_cases hc : s = pyLower v
        · rw [if_pos hc] at h
          cases h
          rw [filter_by_key_cons, hl, htail]
          dsimp only
          rw [if_pos hc]
        · rw [if_neg hc] at h
          cases h
          exact htail

theorem slice_min_eq {α : Type} (l : List α) (s e : Nat) :
    (l.drop (min l.length s)).take (min l.length e - min l.length s) = (l.drop s).take (e - s) := by
  rcases le_or_lt s l.length with hs | hs
  · rw [min_eq_right hs]
    rcases le_or_lt e l.length with he | he
    · rw [min_eq_right he]
    · rw [min_eq_left he.le]
      have h1 : (l.drop s).length = l.length - s := List.length_drop s l
      rw [List.take_of_length_le (by omega), List.take_of_length_le (by omega)]
  · have h2 : l.drop s = [] := List.drop_eq_nil_of_le hs.le
    rw [min_eq_left hs.le, List.drop_length, h2]
    simp

theorem pySlice_nonneg {α : Type} (l : List α) (a b : Int) (ha : 0 ≤ a) (hb : 0 ≤ b) :
    pySlice l a b = (l.drop a.toNat).take (b.toNat - a.toNat) := by
  unfold pySlice sliceIdx
  rw [if_neg (not_lt.mpr ha), if_neg (not_lt.mpr hb)]
  exact slice_min_eq l a.toNat b.toNat

theorem paginate_parsed_eq (l : List Record) (hl : l ≠ []) (po ppo : Option String) (p pp : Int)
    (hp : (match po with | none => some 1 | some s => pyInt s) = some p)
    (hpp : (match ppo with | none => some 50 | some s => pyInt s) = some pp) :
    paginate l po ppo =
      .ok ((l.drop ((max 1 p - 1) * min 100 (max 1 pp)).toNat).take (min 100 (max 1 pp)).toNat) := by
  have hne : l.isEmpty = false := by
    cases l with
    | nil => exact absurd rfl hl
    | cons a t => rfl
  unfold paginate
  rw [hne]
  rw [hp, hpp]
  dsimp only
  have h1 : (1 : Int) ≤ max 1 p := le_max_left 1 p
  have h2 : (1 : Int) ≤ min 100 (max 1 pp) := le_min (by norm_num) (le_max_left 1 pp)
  have ha : 0 ≤ (max 1 p - 1) * min 100 (max 1 pp) := mul_nonneg (by omega) (by omega)
  have hb : 0 ≤ (max 1 p - 1) * min 100 (max 1 pp) + min 100 (max 1 pp) := by omega
  rw [pySlice_nonneg l _ _ ha hb, Int.toNat_add ha (by omega)]
  rw [Nat.add_sub_cancel_left]
  simp

set_option maxRecDepth 8000 in
/-- Claim C2: for every non-empty record sequence, `paginate` returns the
half-open slice `[(page-1)*per_page, (page-1)*per_page + per_page)` of
the input, where `page` defaults to 1 and is clamped to at least 1 and
`per_page` defaults to 50 and is clamped to `[1, 100]`; an out-of-range
start yields an empty sequence, not an error; and on the 120-element
sequence `sample120` with `per_page=50`, page 1 returns the first 50
elements, page 3 the remaining 20, and page 4 an empty sequence. -/
theorem paginate_slice_spec :
    (∀ (l : List Record) (ps pps : String) (p pp : Int), l ≠ [] →
        pyInt ps = some p → pyInt pps = some pp →
        paginate l (some ps) (some pps) =
          .ok ((l.drop ((max 1 p - 1) * min 100 (max 1 pp)).toNat).take (min 100 (max 1 pp)).toNat))
    ∧ (∀ l : List Record, l ≠ [] → paginate l none none = .ok (l.take 50))
    ∧ (∀ (l : List Record) (ps pps : String) (p pp : Int), l ≠ [] →
        pyInt ps = some p → pyInt pps = some pp →
        l.length ≤ ((max 1 p - 1) * min 100 (max 1 pp)).toNat →
        paginate l (some ps) (some pps) = .ok [])
    ∧ paginate sample120 (some "1") (some "50") = .ok (sample120.take 50)
    ∧ paginate sample120 (some "3") (some "50") = .ok (sample120.drop 100)
    ∧ paginate sample120 (some "4") (some "50") = .ok [] := by
  refine ⟨?_, ?_, ?_, by decide, by decide, by decide⟩
  · intro l ps pps p pp hl hp hpp
    exact paginate_parsed_eq l hl (some ps) (some pps) p pp hp hpp
  · intro l hl
    have h := paginate_parsed_eq l hl none none 1 50 rfl rfl
    have e1 : ((max (1 : Int) 1 - 1) * min 100 (max 1 50)).toNat = 0 := by decide
    have e2 : ((min (100 : Int) (max 1 50))).toNat = 50 := by decide
    rw [e1, e2, List.drop_zero] at h
    exact h
  · intro l ps pps p pp hl hp hpp hlen
    have h := paginate_parsed_eq l hl (some ps) (some pps) p pp hp hpp
    rw [List.drop_eq_nil_of_le hlen] at h
    simpa using h

theorem paginate_slice_spec_witness :
    paginate [[("player_id", JVal.int 7)], [("player_id", JVal.int 8)]] (some "2") (some "1") =
      .ok (([[("player_id", JVal.int 7)], [("player_id", JVal.int 8)]].drop
              ((max 1 (2 : Int) - 1) * min 100 (max 1 (1 : Int))).toNat).take
            (min 100 (max 1 (1 : Int))).toNat) :=
  paginate_slice_spec.1 [[("player_id", JVal.int 7)], [("player_id", JVal.int 8)]]
    "2" "1" 2 1 (by decide) (by decide) (by decide)

/-- Claim C3 counterexample: `paginate` on an empty input does not return
an empty record sequence; it returns the `jsonify(..., 404)` no-results
message response. -/
theorem paginate_empty_counterexample :
    paginate [] (some "2") (some "10") = .noResults
    ∧ paginate [] (some "2") (some "10") ≠ .ok [] :=
  ⟨rfl, by decide⟩

/-- Claim C3 (amended): `paginate` applied to an empty input sequence
short-circuits to the 404 no-results message response without consulting
the pagination parameters: the outcome is the same for every choice of
`page` and `per_page`. -/
theorem paginate_empty_noResults :
    ∀ (a b a2 b2 : Option String),
      paginate [] a b = .noResults ∧ paginate [] a b = paginate [] a2 b2 :=
  fun _ _ _ _ => ⟨rfl, rfl⟩

/-- Claim C4: on records whose value at the examined field, when present,
is a string, `filter_by_key` keeps exactly the records whose value at the
field (missing read as `""`), case-folded, equals the given value
case-folded; a record missing the field never matches a non-empty
value. -/
theorem filter_by_key_spec :
    ∀ (l : List Record) (f v : String), (∀ r ∈ l, stringyAt r f = true) →
      filter_by_key l f v =
          .ok (l.filter (fun r => decide (pyLower (getStrD r f) = pyLower v)))
      ∧ (v ≠ "" → ∀ r ∈ l, dictGet r f = none →
          r ∉ l.filter (fun r => decide (pyLower (getStrD r f) = pyLower v))) := by
  intro l f v h
  refine ⟨filter_by_key_eq_filter l f v h, ?_⟩
  intro hv r hr hnone hmem
  rw [List.mem_filter] at hmem
  have hpred : pyLower (getStrD r f) = pyLower v := of_decide_eq_true hmem.2
  have hg : getStrD r f = "" := by unfold getStrD; rw [hnone]
  rw [hg, pyLower_empty] at hpred
  exact hv (pyLower_eq_empty hpred.symm)

theorem filter_by_key_spec_witness :
    filter_by_key c4l "team_title" "ARSENAL" =
        .ok (c4l.filter (fun r => decide (pyLower (getStrD r "team_title") = pyLower "ARSENAL")))
    ∧ c4l.filter (fun r => decide (pyLower (getStrD r "team_title") = pyLower "ARSENAL")) =
        [[("team_title", JVal.str "Arsenal")]] :=
  ⟨(filter_by_key_spec c4l "team_title" "ARSENAL" (by decide)).1, by decide⟩

/-- Claim C5: `filter_by_key` is idempotent: composing it with itself on
the same field and value (propagating a raised error, as Python does)
equals a single application. -/
theorem filter_by_key_idempotent :
    ∀ (l : List Record) (f v : String),
      (filter_by_key l f v).bind (fun r => filter_by_key r f v) = filter_by_key l f v := by
  intro l f v
  cases h : filter_by_key l f v with
  | error e => rfl
  | ok r =>
    show filter_by_key r f v = .ok r
    exact filter_by_key_ok_fix l f v r h

/-- Claim C6 counterexample: on a record whose field value is an integer,
app1.py's `filter_by_key` raises `AttributeError` to its caller instead
of returning an empty sequence. -/
theorem filter_by_key_error_counterexample :
    filter_by_key c6bad "position" "gk" = .error .attributeError
    ∧ filter_by_key c6bad "position" "gk" ≠ .ok [] :=
  ⟨rfl, by decide⟩

/-- Claim C6 (amended): app1.py's `filter_by_key` propagates internal
errors; the app.py (lines 210-221) variant wraps the same comprehension
in a catch-all and converts any internal error into an empty sequence. -/
theorem filter_by_key_app_swallows :
    ∀ (l : List Record) (f v : String) (e : PyErr),
      filter_by_key l f v = .error e → filter_by_key_app l f v = [] := by
  intro l f v e h
  unfold filter_by_key_app
  rw [h]

theorem filter_by_key_app_swallows_witness :
    filter_by_key_app c6bad2 "team_title" "x" = [] :=
  filter_by_key_app_swallows c6bad2 "team_title" "x" .attributeError (by decide)

theorem filterItemsByDate_cons (target : Date) (r : Record) (rest : List Record) :
    filterItemsByDate target (r :: rest) =
      match dictGet r "datetime" with
      | none => .error (.raised .keyError)
      | some (.str s) =>
        match parseDateTime s with
        | none => .error .valueErr
        | some d =>
          match filterItemsByDate target rest with
          | .error e => .error e
          | .ok tail => .ok (if d = target then r :: tail else tail)
      | some _ => .error (.raised .typeError) := rfl

theorem filterItemsByDate_ok (target : Date) (l : List Record)
    (h : ∀ r ∈ l, dtParses r = true) :
    filterItemsByDate target l = .ok (l.filter (fun r => dateMatches r target)) := by
  induction l with
  | nil => rfl
  | cons r rest ih =>
    have hr : dtParses r = true := h r (List.mem_cons_self _ _)
    have hrest : ∀ x ∈ rest, dtParses x = true :=
      fun x hx => h x (List.mem_cons_of_mem _ hx)
    unfold dtParses at hr
    rw [filterItemsByDate_cons]
    cases hg : dictGet r "datetime" with
    | none => simp [hg] at hr
    | some jv =>
      cases jv with
      | str s =>
        simp only [hg] at hr
        dsimp only
        cases hp : parseDateTime s with
        | none => simp [hp] at hr
        | some d =>
          dsimp only
          rw [ih hrest]
          dsimp only
          have hdm : dateMatches r target = decide (d = target) := by
            unfold dateMatches
            rw [hg]
            dsimp only
            rw [hp]
          rw [List.filter_cons, hdm]
          by_cases hdt : d = target
          · rw [if_pos hdt]
            simp [hdt]
          · rw [if_neg hdt]
            simp [hdt]
      | int n => simp [hg] at hr
      | bool b => simp [hg] at hr
      | null => simp [hg] at hr

/-- Claim C7 counterexample: the claim's biconditional fails in general:
`"2024-01-01"` parses, `c7rec`'s timestamp has the target calendar date,
yet `filter_by_date` returns the 400 schema-failure response instead of
keeping the record (its required `team_a` field is missing). -/
theorem filter_by_date_schema_counterexample :
    (parseDate "2024-01-01").isSome = true
    ∧ dateMatches c7rec { y := 2024, m := 1, d := 1 } = true
    ∧ filter_by_date [c7rec] "2024-01-01" = .schemaFailResp
    ∧ filter_by_date [c7rec] "2024-01-01" ≠ .ok [c7rec] := by
  decide

/-- Claim C7 (amended): `filter_by_date` answers the 400 invalid-date
response when the date string does not parse in `YYYY-MM-DD` form; when
it parses and every record's `datetime` field is a string parsing in
`YYYY-MM-DDTHH:MM:SS` form, the records whose calendar date equals the
target are selected and returned if they satisfy the matches schema,
otherwise the 400 schema-failure response is returned; on the
specification's example set, only the `2024-01-01T15:00:00` record is
returned. -/
theorem filter_by_date_spec :
    (∀ (l : List Record) (s : String), parseDate s = none →
        filter_by_date l s = .invalidDateResp)
    ∧ (∀ (l : List Record) (s : String) (d : Date), parseDate s = some d →
        (∀ r ∈ l, dtParses r = true) →
        filter_by_date l s =
          (if validateArray (SCHEMAS "matches") (l.filter (fun r => dateMatches r d)) then
            .ok (l.filter (fun r => dateMatches r d))
          else .schemaFailResp))
    ∧ filter_by_date exMatches "2024-01-01" = .ok [exMatch1] := by
  refine ⟨?_, ?_, by decide⟩
  · intro l s h
    unfold filter_by_date
    rw [h]
  · intro l s d hp h
    unfold filter_by_date
    rw [hp]
    dsimp only
    rw [filterItemsByDate_ok d l h]

theorem filter_by_date_spec_witness :
    filter_by_date [] "nonsense" = .invalidDateResp
    ∧ filter_by_date exMatches "2024-01-02" =
        (if validateArray (SCHEMAS "matches")
            (exMatches.filter (fun r => dateMatches r { y := 2024, m := 1, d := 2 })) then
          .ok (exMatches.filter (fun r => dateMatches r { y := 2024, m := 1, d := 2 }))
        else .schemaFailResp) :=
  ⟨filter_by_date_spec.1 [] "nonsense" (by decide),
   filter_by_date_spec.2.1 exMatches "2024-01-02" { y := 2024, m := 1, d := 2 }
     (by decide) (by decide)⟩

/-- Claim C10: `filter_by_date` re-validates the filtered records against
the matches schema: `"2024-01-01"` is a valid date, `c10rec` matches it,
but its `team_a` is not a string, so the call returns the 400
schema-failure response instead of the matching records. -/
theorem filter_by_date_revalidates :
    parseDate "2024-01-01" = some { y := 2024, m := 1, d := 1 }
    ∧ dateMatches c10rec { y := 2024, m := 1, d := 1 } = true
    ∧ validateArray (SCHEMAS "matches") [c10rec] = false
    ∧ filter_by_date [c10rec] "2024-01-01" = .schemaFailResp
    ∧ filter_by_date [c10rec] "2024-01-01" ≠ .ok [c10rec] := by
  decide

/-- Claim C1: the schema-validating loader cannot fail soft: the
`lru_cache` wrapper raises `TypeError` on the unhashable schema `dict`
for every cache state and every state of the disk, before any failure
mode of the body could be converted into an empty result; the cache is
left unchanged and the disk untouched. -/
theorem load_json_file_schema_call_raises :
    ∀ (c : Cache) (fs : FS),
      (load_json_file c fs (DATA_FILES "players") (some (SCHEMAS "players"))).result
          = .error .typeError
      ∧ (load_json_file c fs (DATA_FILES "players") (some (SCHEMAS "players"))).cache = c
      ∧ (load_json_file c fs (DATA_FILES "players") (some (SCHEMAS "players"))).disk = false :=
  fun _ _ => ⟨rfl, rfl, rfl⟩

/-- Claim C8 counterexample: a `/players` request with `team=Arsenal1` is
not rejected as an InvalidArgument client error: the handler's initial
load call raises `TypeError` first, so the request fails as a server
error (the cache is indeed left unpopulated, but no 400 response is
produced). -/
theorem get_players_digit_team_counterexample :
    get_players [] fs0 (some "Arsenal1") none none = (.raise .typeError, [])
    ∧ get_players [] fs0 (some "Arsenal1") none none
        ≠ (.clientError "Invalid team parameter. Must contain only alphabetic characters.",
           ([] : Cache)) :=
  ⟨rfl, by decide⟩

/-- Claim C8 (amended): every `/players` request — whatever the `team`
value — fails before the team check with the uncaught `TypeError` raised
by the cache wrapper on the unhashable schema; the loader cache is left
unchanged and no filtering is attempted, and the InvalidArgument
rejection is unreachable. -/
theorem get_players_always_raises :
    ∀ (c : Cache) (fs : FS) (team pageArg perArg : Option String),
      get_players c fs team pageArg perArg = (.raise .typeError, c) :=
  fun _ _ _ _ _ => rfl

theorem cacheLookup_cons_self (k : String) (v : JDoc) (c : Cache) :
    cacheLookup ((k, v) :: c) k = some v := by
  unfold cacheLookup
  rw [List.find?_cons_of_pos _ (by simp)]
  rfl

/-- Claim C9 counterexample: a repeated `load_json_file` call with the
same path and the same (supplied) schema does not return a cached
sequence: both calls raise `TypeError` and the first call caches
nothing. -/
theorem load_schema_repeat_counterexample :
    (load_json_file [] fs0 (DATA_FILES "players") (some (SCHEMAS "players"))).result
        = .error .typeError
    ∧ (load_json_file [] fs0 (DATA_FILES "players") (some (SCHEMAS "players"))).cache = []
    ∧ (load_json_file
          (load_json_file [] fs0 (DATA_FILES "players") (some (SCHEMAS "players"))).cache
          fs0 (DATA_FILES "players") (some (SCHEMAS "players"))).result
        = .error .typeError :=
  ⟨rfl, rfl, rfl⟩

/-- Claim C9 (amended): for `schema=None` calls the cache behaves as
claimed: for every cache state, disk and path, a repeated call with the
same path returns the same result as the first call, leaves the
capacity-10 LRU cache unchanged, and does not touch the disk. -/
theorem load_repeat_cached :
    ∀ (c : Cache) (fs : FS) (path : String),
      (load_json_file (load_json_file c fs path none).cache fs path none).result
          = (load_json_file c fs path none).result
      ∧ (load_json_file (load_json_file c fs path none).cache fs path none).cache
          = (load_json_file c fs path none).cache
      ∧ (load_json_file (load_json_file c fs path none).cache fs path none).disk = false := by
  intro c fs path
  cases h : cacheLookup c path with
  | some v =>
    have hs1 : load_json_file c fs path none =
        { result := .ok v, cache := cachePromote c path, disk := false } := by
      unfold load_json_file
      rw [h]
    have hpro : cachePromote c path = (path, v) :: c.filter (fun e => !(decide (e.1 = path))) := by
      unfold cachePromote
      rw [h]
    have hl2 : cacheLookup (cachePromote c path) path = some v := by
      rw [hpro]
      exact cacheLookup_cons_self path v _
    have hs2 : load_json_file (cachePromote c path) fs path none =
        { result := .ok v, cache := cachePromote (cachePromote c path) path, disk := false } := by
      unfold load_json_file
      rw [hl2]
    have hpp : cachePromote (cachePromote c path) path = cachePromote c path := by
      rw [hpro]
      have hlk : cacheLookup ((path, v) :: c.filter (fun e => !(decide (e.1 = path)))) path
          = some v := cacheLookup_cons_self path v _
      unfold cachePromote
      rw [hlk]
      rw [List.filter_cons]
      simp only [decide_True, Bool.not_true, Bool.false_eq_true, if_false]
      simp [List.filter_filter]
    rw [hs1, hs2, hpp]
    exact ⟨rfl, rfl, rfl⟩
  | none =>
    have hfind : List.find? (fun e => decide (e.1 = path)) c = none := by
      unfold cacheLookup at h
      exact Option.map_eq_none'.mp h
    have hs1 : load_json_file c fs path none =
        { result := .ok (jsonBody fs path), cache := cacheInsert c path (jsonBody fs path),
          disk := true } := by
      unfold load_json_file
      rw [h]
    have hins : cacheInsert c path (jsonBody fs path) =
        (path, jsonBody fs path) :: c.take 9 := by
      unfold cacheInsert
      rw [List.take_succ_cons]
    have hl2 : cacheLookup ((path, jsonBody fs path) :: c.take 9) path
        = some (jsonBody fs path) := cacheLookup_cons_self path _ _
    have hfix : ((path, jsonBody fs path) :: c.take 9).filter
        (fun e => !(decide (e.1 = path))) = c.take 9 := by
      rw [List.filter_cons]
      simp only [decide_True, Bool.not_true, Bool.false_eq_true, if_false]
      apply List.filter_eq_self.mpr
      intro a ha
      have hmem : a ∈ c := (List.take_sublist 9 c).subset ha
      have hne := List.find?_eq_none.mp hfind a hmem
      simpa using hne
    have hs2 : load_json_file ((path, jsonBody fs path) :: c.take 9) fs path none =
        { result := .ok (jsonBody fs path),
          cache := (path, jsonBody fs path) :: c.take 9, disk := false } := by
      unfold load_json_file
      rw [hl2]
      unfold cachePromote
      rw [hl2, hfix]
    rw [hs1, hins, hs2]
    exact ⟨rfl, rfl, rfl⟩
